import Mathlib

/-!
Verification of the reconciliation engine of `panos-to-scm` (`scm/process.py`):
the diff engine (`needs_update` / `deep_compare`), the creation-result
aggregation (`analyze_results`, `post_entries`), the per-type classifier
(`get_new_and_updated_entries`) and the rule-order reconciler
(`reorder_rules`, `check_and_reorder_rules`, `is_rule_order_correct`).
Python values handled by the diff engine are embedded as a recursive
algebraic type `Value`; the remote gateway is an explicit state-passing
collaborator (`Gateway`).
-/

namespace PanosScm

/-- A Python value as the diff engine sees it: `None`, a scalar (string,
integer, boolean), a list, or a string-keyed dict. -/
inductive Value where
  | vnull : Value
  | vstr : String → Value
  | vint : Int → Value
  | vbool : Bool → Value
  | vlist : List Value → Value
  | vdict : List (String × Value) → Value
deriving Repr

/-- First value bound to a key, as Python dict indexing sees it
(a real dict has each key once). -/
def pyLookup (k : String) : List (String × Value) → Option Value
  | [] => none
  | kv :: rest => if kv.1 == k then some kv.2 else pyLookup k rest

mutual

/-- Python `==` on embedded values: `None`, scalars and lists compare
structurally; dicts compare key-set-wise (same size, every key of the left
dict bound in the right one to an equal value). -/
def Value.beq : Value → Value → Bool
  | .vnull, .vnull => true
  | .vstr a, .vstr b => a == b
  | .vint a, .vint b => a == b
  | .vbool a, .vbool b => a == b
  | .vlist xs, .vlist ys => Value.beqList xs ys
  | .vdict xs, .vdict ys => xs.length == ys.length && Value.beqFields xs ys
  | _, _ => false

/-- Elementwise Python `==` on two lists of values. -/
def Value.beqList : List Value → List Value → Bool
  | [], [] => true
  | x :: xs, y :: ys => Value.beq x y && Value.beqList xs ys
  | _, _ => false

/-- Every key of the first dict is bound in the second to an equal value. -/
def Value.beqFields : List (String × Value) → List (String × Value) → Bool
  | [], _ => true
  | (k, v) :: xs, ys =>
      (match pyLookup k ys with
       | some w => Value.beq v w
       | none => false) && Value.beqFields xs ys

end

mutual

/-- `deep_compare` of `SCMObjectManager.needs_update` (process.py 373-406):
`true` means a difference was detected. An empty list against `None` is no
difference; `None` against `None` is no difference; `None` against anything
else is a difference; dicts recurse key-by-key over the first dict's keys;
lists differ on length or on a differing positional pair (recursing only
when both items are dicts); anything else is Python `!=`. -/
def deep_compare : Value → Value → Bool
  | .vlist [], .vnull => false
  | .vnull, .vlist [] => false
  | .vnull, .vnull => false
  | .vnull, _ => true
  | _, .vnull => true
  | .vdict xs, .vdict ys => dcFields xs ys
  | .vlist xs, .vlist ys => xs.length != ys.length || dcItems xs ys
  | v1, v2 => !(v1.beq v2)

/-- Dict branch of `deep_compare`: a key of the first dict missing from the
second, or recursively different at some key. -/
def dcFields : List (String × Value) → List (String × Value) → Bool
  | [], _ => false
  | (k, v) :: xs, ys =>
      (match pyLookup k ys with
       | none => true
       | some w => deep_compare v w) || dcFields xs ys

/-- List branch of `deep_compare` over `zip`: both items dicts recurse,
otherwise Python `!=`. -/
def dcItems : List Value → List Value → Bool
  | x :: xs, y :: ys =>
      (match x, y with
       | .vdict a, .vdict b => deep_compare (.vdict a) (.vdict b)
       | _, _ => !(x.beq y)) || dcItems xs ys
  | _, _ => false

end

/-- A record: a Python dict mapping field names to values. -/
abbrev PyRec := List (String × Value)

/-- Python `current_object.get(key)`: the bound value, `None` when absent. -/
def dictGet (d : PyRec) (k : String) : Value :=
  (pyLookup k d).getD .vnull

/-- The field loop of `needs_update` (process.py 408-420), parametrised by
the comparison step: Python's `deep_compare` call sits in a `try`/`except`,
so the step is fallible; an `error` outcome is logged and treated as no
difference for that field, and the loop goes on. -/
def needsUpdateLoop (cmp : Value → Value → Except String Bool) (newObj curObj : PyRec) : Bool :=
  newObj.any fun kv =>
    if kv.1 == "name" then false
    else
      match cmp kv.2 (dictGet curObj kv.1) with
      | .ok d => d
      | .error _ => false

/-- `SCMObjectManager.needs_update` (process.py 357-420): a falsy (empty)
current object is no update; otherwise every field of the new object other
than `name` is deep-compared against the current object's value. -/
def needs_update (newObj curObj : PyRec) : Bool :=
  if curObj.isEmpty then false
  else needsUpdateLoop (fun v w => .ok (deep_compare v w)) newObj curObj

/-- A record's `name` field (`parsed_obj['name']`, `o['name']`). -/
def recName (r : PyRec) : Value := dictGet r "name"

/-- Python `name not in current_names` where
`current_names = set(o['name'] for o in current_set)`. -/
def nameAbsent (current : List PyRec) (n : Value) : Bool :=
  !(current.any fun o => (recName o).beq n)

/-- Python `next(o for o in current_set if o['name'] == name)`. -/
def findByName (current : List PyRec) (n : Value) : Option PyRec :=
  current.find? fun o => (recName o).beq n

/-- Python dict-merge update that binds `k` to `v` in `d`: replace the
binding of `k` in place when present, append it otherwise. -/
def dictSet (d : PyRec) (k : String) (v : Value) : PyRec :=
  if (pyLookup k d).isSome then d.map (fun kv => if kv.1 == k then (k, v) else kv)
  else d ++ [(k, v)]

/-- The id-carrying copy of a parsed record (process.py 349): the parsed
record with its `id` field set to the matched current record's `id`. -/
def withId (p ex : PyRec) : PyRec := dictSet p "id" (dictGet ex "id")

/-- Per-object-type body of `SCMObjectManager.get_new_and_updated_entries`
(process.py 321-355): each parsed record whose `name` is absent from the
current set joins the new entries; otherwise the first current record with
the same `name` supplies its `id`, and the id-carrying record joins the
updated entries exactly when `needs_update` detects a difference. -/
def get_new_and_updated_entries : List PyRec → List PyRec → List PyRec × List PyRec
  | [], _ => ([], [])
  | p :: rest, current =>
    let acc := get_new_and_updated_entries rest current
    if nameAbsent current (recName p) then (p :: acc.1, acc.2)
    else
      match findByName current (recName p) with
      | some ex =>
          if needs_update (withId p ex) ex then (acc.1, withId p ex :: acc.2)
          else (acc.1, acc.2)
      | none => (acc.1, acc.2)

/-- Stated from the spec, for comparison with the classifier: a desired
entry is new when no current entry shares its `name`. -/
def specIsNew (current : List PyRec) (p : PyRec) : Bool :=
  nameAbsent current (recName p)

/-- Stated from the spec, for comparison with the classifier: a desired
entry is updated when a current entry shares its `name` and the id-carrying
copy structurally differs from it. -/
def specIsUpdated (current : List PyRec) (p : PyRec) : Bool :=
  match findByName current (recName p) with
  | some ex => needs_update (withId p ex) ex
  | none => false

/-- Stated from the spec, for comparison with the classifier: a desired
entry is unchanged when a current entry shares its `name` and no structural
difference exists. -/
def specIsUnchanged (current : List PyRec) (p : PyRec) : Bool :=
  match findByName current (recName p) with
  | some ex => !needs_update (withId p ex) ex
  | none => false

/-- One gateway response as `analyze_results` reads it: a dict that may or
may not carry `status`, `message` and `name` keys. -/
structure ApiResult where
  status : Option String
  message : Option String
  name : Option String
deriving Repr, DecidableEq

/-- `Processor.analyze_results` (process.py 91-115): a result carrying all
three keys counts as created on status `success` with message
`Object processed`, as already-existing on `success` with any other
message, and as an error (its name recorded) on status
`error creating object`; every other result is ignored. -/
def analyze_results : List ApiResult → Nat × Nat × Nat × List String
  | [] => (0, 0, 0, [])
  | r :: rest =>
    let acc := analyze_results rest
    match r.status, r.message, r.name with
    | some st, some msg, some nm =>
        if st = "success" then
          if msg = "Object processed" then (acc.1 + 1, acc.2.1, acc.2.2.1, acc.2.2.2)
          else (acc.1, acc.2.1 + 1, acc.2.2.1, acc.2.2.2)
        else if st = "error creating object" then
          (acc.1, acc.2.1, acc.2.2.1 + 1, nm :: acc.2.2.2)
        else acc
    | _, _, _ => acc

/-- A result the status+message contract counts as created. -/
def isCreatedResult (r : ApiResult) : Bool :=
  r.status == some "success" && r.message == some "Object processed"

/-- A result the status+message contract counts as already existing. -/
def isExistsResult (r : ApiResult) : Bool :=
  r.status == some "success" && !(r.message == some "Object processed")

/-- A result the status+message contract counts as failed. -/
def isFailedResult (r : ApiResult) : Bool :=
  r.status == some "error creating object"

/-- One observable effect of `Processor.post_entries`: an informational log
line, one create call against the endpoint, or the structured summary that
`log_summary` emits (counts, the enumerated failing names; elapsed time is
carried by the event's presence). -/
inductive LogEvent where
  | info (msg : String)
  | postCall (endpoint : String)
  | summary (initialCount createdCount existsCount errorCount : Nat) (errNames : List String)
deriving Repr, DecidableEq

/-- `Processor.create_objects` (process.py 62-89): one create call per
entry; the gateway behaviour `api` yields each call's response. -/
def create_objects (endpoint : String) (entries : List PyRec) (api : PyRec → ApiResult) :
    List ApiResult × List LogEvent :=
  (entries.map api, entries.map fun _ => LogEvent.postCall endpoint)

/-- `Processor.log_summary` (process.py 117-144) as the structured summary
event it logs. -/
def log_summary (initialCount createdCount existsCount errorCount : Nat)
    (errNames : List String) : LogEvent :=
  .summary initialCount createdCount existsCount errorCount errNames

/-- `Processor.post_entries` (process.py 30-60): an empty entry list logs
`No entries to process.` and returns the zero counts at once; otherwise the
entries are posted, the results analyzed, and the summary logged. -/
def post_entries (entries : List PyRec) (endpoint : String) (api : PyRec → ApiResult) :
    (Nat × Nat × Nat) × List LogEvent :=
  if entries.isEmpty then ((0, 0, 0), [.info "No entries to process."])
  else
    let co := create_objects endpoint entries api
    let res := analyze_results co.1
    ((res.1, res.2.1, res.2.2.1),
      [.info "Processing entries in parallel."] ++ co.2
        ++ [log_summary entries.length res.1 res.2.1 res.2.2.1 res.2.2.2])

/-- The event is the structured summary. -/
def isSummaryEvent : LogEvent → Bool
  | .summary _ _ _ _ _ => true
  | _ => false

/-- The event is a create call. -/
def isPostEvent : LogEvent → Bool
  | .postCall _ => true
  | _ => false

/-- A remote rule record as the order reconciler reads it: its `name`, its
remote `id` and its `folder` scope tag. -/
structure Rule where
  name : String
  id : String
  folder : String
deriving Repr, DecidableEq

/-- Body of one move call (process.py 175-179). -/
structure MoveData where
  destination : String
  rulebase : String
  destination_rule : String
deriving Repr, DecidableEq

/-- One scheduled move: the `:move` endpoint built from the moved rule's id,
that id, and the body naming the destination rule. -/
structure MoveCall where
  moveEndpoint : String
  ruleId : String
  data : MoveData
deriving Repr, DecidableEq

/-- The remote gateway as the reconciler drives it: posting a move yields a
new remote state and a response status; a get yields a state and the fetched
rule list. Leaving the state type and both functions free covers any
behaviour of the remote side. -/
structure Gateway (σ : Type) where
  postMove : σ → MoveCall → σ × String
  getRules : σ → σ × List Rule

/-- The name-to-id dict of process.py 160: built by one pass over the
current rules, a later rule with the same name overwriting an earlier one. -/
def ruleIdsOf (rules : List Rule) : String → Option String :=
  fun n => (rules.reverse.find? fun r => r.name == n).map fun r => r.id

/-- The current order of process.py 161: the current rules' names. -/
def namesOf (rules : List Rule) : List String := rules.map fun r => r.name

/-- The desired order of process.py 162: the original rules' names kept when
the name is a key of the name-to-id dict (present remotely). -/
def desiredOrderOf (originalRules currentRules : List Rule) : List String :=
  (originalRules.map fun r => r.name).filter fun n => (ruleIdsOf currentRules n).isSome

/-- Python `list.index`: the first index of the element, `none` standing for
the `ValueError` raised when it is absent. -/
def idxOf : List String → String → Option Nat
  | [], _ => none
  | x :: xs, n => if x == n then some 0 else (idxOf xs n).map (· + 1)

/-- The move-set pass of process.py 171-181: for each consecutive pair of
the desired order whose first name currently sits after the second, schedule
a move of the first before the second. `none` stands for the `ValueError`
`list.index` raises when a name is absent from the current order. -/
def computeMoves (endpoint position : String) (ids : String → Option String)
    (current : List String) : List String → Option (List MoveCall)
  | a :: b :: rest => do
      let ia ← idxOf current a
      let ib ← idxOf current b
      let tail ← computeMoves endpoint position ids current (b :: rest)
      if ib < ia then
        let ra := (ids a).getD ""
        let rb := (ids b).getD ""
        pure (⟨endpoint ++ "/" ++ ra ++ ":move", ra, ⟨"before", position, rb⟩⟩ :: tail)
      else pure tail
  | _ => pure []

/-- How the `while` loop of `reorder_rules` was left: orders matched, the
pass scheduled no move, an absent name raised, or the attempt budget ran
out. -/
inductive LoopExit where
  | converged
  | noMoves
  | indexError
  | budget
deriving Repr, DecidableEq

/-- The `while` loop of `reorder_rules` (process.py 167-198), fuelled by the
attempts remaining out of the budget of 8: while the current order differs
from the desired one, count an attempt, compute the adjacent-pair move set,
stop if it is empty, submit the moves, refetch, filter the fetched rules to
the folder scope, drop the `default` sentinel and go round again. The
name-to-id dict `ids` is the one built before the loop and is never
refreshed. -/
def reorderLoop {σ : Type} (gw : Gateway σ) (endpoint folderScope position : String)
    (ids : String → Option String) (desired : List String) :
    Nat → Nat → σ → List String → σ × List String × Nat × LoopExit
  | 0, attempts, s, current =>
      (s, current, attempts, if current = desired then LoopExit.converged else LoopExit.budget)
  | fuel + 1, attempts, s, current =>
      if current = desired then (s, current, attempts, LoopExit.converged)
      else
        match computeMoves endpoint position ids current desired with
        | none => (s, current, attempts + 1, LoopExit.indexError)
        | some [] => (s, current, attempts + 1, LoopExit.noMoves)
        | some (m :: ms) =>
            let s1 := (m :: ms).foldl (fun st mv => (gw.postMove st mv).1) s
            let s2 := (gw.getRules s1).1
            let fetched := (gw.getRules s1).2
            let currentRules := fetched.filter fun r => r.folder == folderScope
            let newOrder := (currentRules.filter fun r => r.name != "default").map fun r => r.name
            reorderLoop gw endpoint folderScope position ids desired fuel (attempts + 1) s2 newOrder

/-- `Processor.reorder_rules` (process.py 146-198): build the name-to-id
dict, the current order and the presence-filtered desired order, run the
bounded loop, and — the function having no `return` statement — yield
Python's `None`, embedded as the second component. -/
def reorder_rules {σ : Type} (gw : Gateway σ) (endpoint folderScope position : String)
    (originalRules currentRules : List Rule) (s : σ) :
    (σ × List String × Nat × LoopExit) × Option Bool :=
  (reorderLoop gw endpoint folderScope position (ruleIdsOf currentRules)
      (desiredOrderOf originalRules currentRules) 8 0 s (namesOf currentRules),
   none)

/-- The folder filter applied to a fetched rule list (process.py 197, 219,
486-487): keep the rules whose `folder` equals the target scope. -/
def scopeFilter (fetched : List Rule) (folderScope : String) : List Rule :=
  fetched.filter fun r => r.folder == folderScope

/-- The current order `check_and_reorder_rules` compares (process.py
219-220): the fetched rules filtered to the folder scope, the `default`
sentinel dropped, mapped to names. -/
def currentOrderOf (fetched : List Rule) (folderScope : String) : List String :=
  ((scopeFilter fetched folderScope).filter fun r => r.name != "default").map fun r => r.name

/-- The desired order `check_and_reorder_rules` compares (process.py 223):
the original rules' names, the `default` sentinel dropped. -/
def desiredOrderCheck (originalRules : List Rule) : List String :=
  (originalRules.filter fun r => r.name != "default").map fun r => r.name

/-- The order check of process.py 226, `true` when no reordering is
needed. -/
def checkOrderMatches (fetched originalRules : List Rule) (folderScope : String) : Bool :=
  currentOrderOf fetched folderScope == desiredOrderCheck originalRules

/-- `RuleProcessor.is_rule_order_correct` (process.py 237-249): the two rule
lists' name sequences compared as they stand. -/
def is_rule_order_correct (currentRules desiredRules : List Rule) : Bool :=
  (currentRules.map fun r => r.name) == (desiredRules.map fun r => r.name)

/-- Python truthiness of the value `reorder_rules` returns: `None` is
falsy, a boolean is itself. -/
def optTruthy : Option Bool → Bool
  | none => false
  | some b => b

/-- `Processor.check_and_reorder_rules` (process.py 200-234), fuelled: fetch
the rules, derive both sentinel-free orders, and while they differ call
`reorder_rules` and set the done flag to the truthiness of its return
value's negation, Python style (`rules_in_correct_order = not moves_made`).
The result carries the final state, how many times `reorder_rules` ran, and
whether the loop finished within the fuel. -/
def check_and_reorder_rules {σ : Type} (gw : Gateway σ) (endpoint folderScope position : String)
    (originalRules : List Rule) : Nat → σ → Nat → σ × Nat × Bool
  | 0, s, calls => (s, calls, false)
  | fuel + 1, s, calls =>
      let s1 := (gw.getRules s).1
      let fetched := (gw.getRules s).2
      let currentRules := scopeFilter fetched folderScope
      if (currentRules.filter fun r => r.name != "default").map (fun r => r.name)
          ≠ desiredOrderCheck originalRules then
        let res := reorder_rules gw endpoint folderScope position originalRules currentRules s1
        if optTruthy res.2 then
          check_and_reorder_rules gw endpoint folderScope position originalRules fuel
            res.1.1 (calls + 1)
        else (res.1.1, calls + 1, true)
      else (s1, calls, true)

/-- Modelled from the spec: the gateway's move primitive, absent from the
repository's files, "relocates one rule immediately before another named
rule" — the moved rule (found by id) is taken out of the sequence and
reinserted immediately before the destination rule. Helper: insert a rule
before the first rule carrying the destination id. -/
def insertBeforeId (destId : String) (r : Rule) : List Rule → List Rule
  | [] => [r]
  | x :: xs => if x.id == destId then r :: x :: xs else x :: insertBeforeId destId r xs

/-- Modelled from the spec: the effect of one move call on the remote rule
sequence — remove the moved rule and reinsert it immediately before the
destination rule; a move naming an unknown rule leaves the sequence
unchanged. -/
def applyMove (rules : List Rule) (mc : MoveCall) : List Rule :=
  match rules.find? fun r => r.id == mc.ruleId with
  | none => rules
  | some r => insertBeforeId mc.data.destination_rule r (rules.filter fun q => q.id != mc.ruleId)

/-- Modelled from the spec: a remote whose state is its rule sequence, whose
move primitive relocates the named rule immediately before the destination
rule, and whose get returns the sequence as it stands. -/
def listGateway : Gateway (List Rule) where
  postMove := fun s mc => (applyMove s mc, "success")
  getRules := fun s => (s, s)

/-- Sample rule named `A`. -/
def ruleA : Rule := ⟨"A", "idA", "Shared"⟩

/-- Sample rule named `B`. -/
def ruleB : Rule := ⟨"B", "idB", "Shared"⟩

/-- Sample rule named `C`. -/
def ruleC : Rule := ⟨"C", "idC", "Shared"⟩

/-- C1: against the remote whose move primitive relocates the named rule
immediately before the destination rule, with current order A, B, C and
desired order C, A, B (all present remotely, no sentinel entries),
`reorder_rules` converges in 1 of the 8 budgeted attempts, the final current
order being exactly the desired order filtered to the names present
remotely. -/
theorem claim_C1 :
    (reorder_rules listGateway "/ep" "Shared" "pre" [ruleC, ruleA, ruleB]
        [ruleA, ruleB, ruleC] [ruleA, ruleB, ruleC]).1
      = ([ruleC, ruleA, ruleB], ["C", "A", "B"], 1, LoopExit.converged) ∧
    desiredOrderOf [ruleC, ruleA, ruleB] [ruleA, ruleB, ruleC] = ["C", "A", "B"] := by
  decide

/-- The attempt counter the loop of `reorder_rules` returns never exceeds
the attempts it started from plus its remaining fuel. -/
theorem reorderLoop_attempts_le {σ : Type} (gw : Gateway σ)
    (endpoint folderScope position : String)
    (ids : String → Option String) (desired : List String) :
    ∀ (fuel attempts : Nat) (s : σ) (current : List String),
      (reorderLoop gw endpoint folderScope position ids desired fuel attempts s current).2.2.1
        ≤ attempts + fuel := by
  intro fuel
  induction fuel with
  | zero =>
      intro attempts s current
      simp [reorderLoop]
  | succ n ih =>
      intro attempts s current
      simp only [reorderLoop]
      split
      · simp
      · split
        · simp
        · simp
        · exact le_trans (ih (attempts + 1) _ _) (by omega)

/-- C2: whatever the remote's behaviour, the loop of `reorder_rules`
terminates — the attempt counter it returns never exceeds the budget of 8 —
and an iteration whose computed adjacent-pair move set is empty, while the
current order still differs from the desired one, exits at once. -/
theorem claim_C2 {σ : Type} (gw : Gateway σ) (endpoint folderScope position : String)
    (originalRules currentRules : List Rule) (s : σ) :
    (reorder_rules gw endpoint folderScope position originalRules currentRules s).1.2.2.1 ≤ 8 ∧
    (∀ (ids : String → Option String) (desired : List String) (fuel attempts : Nat)
        (s0 : σ) (current : List String),
      current ≠ desired →
      computeMoves endpoint position ids current desired = some [] →
      reorderLoop gw endpoint folderScope position ids desired (fuel + 1) attempts s0 current
        = (s0, current, attempts + 1, LoopExit.noMoves)) := by
  constructor
  · exact reorderLoop_attempts_le gw endpoint folderScope position _ _ 8 0 s _
  · intro ids desired fuel attempts s0 current hne hmv
    simp [reorderLoop, hne, hmv]

/-- A name is absent from the current set exactly when the first-match
search finds nothing. -/
theorem nameAbsent_iff_findByName (current : List PyRec) (n : Value) :
    nameAbsent current n = true ↔ findByName current n = none := by
  simp [nameAbsent, findByName, List.find?_eq_none, List.any_eq_true]

/-- C3: a desired record joins the new entries exactly when no current
record shares its `name`; the new entries are precisely the name-absent
desired records, the updated entries precisely the id-carrying copies of the
present-and-different ones, and every record falls in exactly one of the
new / updated / unchanged classes. -/
theorem claim_C3 (parsed current : List PyRec) :
    (∀ p : PyRec, p ∈ (get_new_and_updated_entries parsed current).1
       ↔ p ∈ parsed ∧ specIsNew current p = true) ∧
    (get_new_and_updated_entries parsed current).1 = parsed.filter (specIsNew current) ∧
    (get_new_and_updated_entries parsed current).2
      = (parsed.filter (specIsUpdated current)).map
          (fun p => withId p ((findByName current (recName p)).getD [])) ∧
    (∀ p : PyRec,
      (if specIsNew current p then (1 : Nat) else 0)
        + (if specIsUpdated current p then 1 else 0)
        + (if specIsUnchanged current p then 1 else 0) = 1) := by
  have hfil : (get_new_and_updated_entries parsed current).1 = parsed.filter (specIsNew current) ∧
      (get_new_and_updated_entries parsed current).2
        = (parsed.filter (specIsUpdated current)).map
            (fun p => withId p ((findByName current (recName p)).getD [])) := by
    induction parsed with
    | nil => exact ⟨rfl, rfl⟩
    | cons p rest ih =>
        obtain ⟨ih1, ih2⟩ := ih
        by_cases hnew : nameAbsent current (recName p) = true
        · have hfind0 := (nameAbsent_iff_findByName current (recName p)).mp hnew
          simp [get_new_and_updated_entries, hnew, hfind0, specIsNew, specIsUpdated,
            List.filter_cons, ih1, ih2]
        · rcases hfind : findByName current (recName p) with _ | ex
          · simp [get_new_and_updated_entries, hnew, hfind, specIsNew, specIsUpdated,
              List.filter_cons, ih1, ih2]
          · by_cases hupd : needs_update (withId p ex) ex = true
            · simp [get_new_and_updated_entries, hnew, hfind, hupd, specIsNew, specIsUpdated,
                List.filter_cons, ih1, ih2]
            · simp_all [get_new_and_updated_entries, hnew, hfind, hupd, specIsNew, specIsUpdated,
                List.filter_cons]
  refine ⟨?_, hfil.1, hfil.2, ?_⟩
  · intro p
    rw [hfil.1]
    simp [List.mem_filter]
  · intro p
    rcases hfind : findByName current (recName p) with _ | ex
    · have hab : nameAbsent current (recName p) = true :=
        (nameAbsent_iff_findByName _ _).mpr hfind
      simp [specIsNew, specIsUpdated, specIsUnchanged, hfind, hab]
    · have hab : ¬ nameAbsent current (recName p) = true := by
        intro h
        rw [(nameAbsent_iff_findByName _ _).mp h] at hfind
        exact Option.noConfusion hfind
      by_cases hupd : needs_update (withId p ex) ex = true <;>
        simp [specIsNew, specIsUpdated, specIsUnchanged, hfind, hab, hupd]

/-- C4: evaluating `needs_update` at the disputed inputs — an empty list
against an absent field is no difference in either direction and a
one-element list against an absent field is a difference, as the spec says;
but an empty dict against an absent field is reported as a difference,
against the spec and against the comparison's own comment, which promises
the empty-list/dict against `None` normalization for both shapes. -/
theorem claim_C4_eval :
    needs_update [("name", Value.vstr "n"), ("a", Value.vlist [])]
      [("name", Value.vstr "n")] = false ∧
    needs_update [("name", Value.vstr "n")]
      [("name", Value.vstr "n"), ("a", Value.vlist [])] = false ∧
    needs_update [("name", Value.vstr "n"), ("a", Value.vlist [Value.vint 1])]
      [("name", Value.vstr "n")] = true ∧
    needs_update [("name", Value.vstr "n"), ("a", Value.vdict [])]
      [("name", Value.vstr "n")] = true := by
  refine ⟨?_, ?_, ?_, ?_⟩ <;>
    simp [needs_update, needsUpdateLoop, deep_compare, dictGet, pyLookup, dcItems]

/-- C5: over results carrying the three contract keys and a contract status,
`analyze_results` returns exactly the four aggregates — the count of
success-and-`Object processed` results, the count of success results with
any other message, the count of error-status results, and those error
results' names in order. -/
theorem claim_C5 (results : List ApiResult)
    (hwf : ∀ r ∈ results, r.status.isSome ∧ r.message.isSome ∧ r.name.isSome)
    (hst : ∀ r ∈ results,
      r.status = some "success" ∨ r.status = some "error creating object") :
    analyze_results results =
      (results.countP isCreatedResult,
       results.countP isExistsResult,
       results.countP isFailedResult,
       (results.filter isFailedResult).map fun r => r.name.getD "") := by
  induction results with
  | nil => rfl
  | cons r rest ih =>
      have hr := hwf r (List.mem_cons_self r rest)
      have hsr := hst r (List.mem_cons_self r rest)
      have ihr := ih (fun x hx => hwf x (List.mem_cons_of_mem r hx))
        (fun x hx => hst x (List.mem_cons_of_mem r hx))
      obtain ⟨hs, hm, hn⟩ := hr
      obtain ⟨msg, hmsg⟩ := Option.isSome_iff_exists.mp hm
      obtain ⟨nm, hnm⟩ := Option.isSome_iff_exists.mp hn
      rcases hsr with hsucc | herr
      · by_cases hmp : msg = "Object processed"
        · subst hmp
          simp [analyze_results, hsucc, hmsg, hnm, ihr, isCreatedResult, isExistsResult,
            isFailedResult, List.countP_cons, List.filter_cons]
        · simp [analyze_results, hsucc, hmsg, hnm, hmp, ihr, isCreatedResult, isExistsResult,
            isFailedResult, List.countP_cons, List.filter_cons]
      · simp [analyze_results, herr, hmsg, hnm, ihr, isCreatedResult, isExistsResult,
          isFailedResult, List.countP_cons, List.filter_cons]

/-- One result of each class, for exercising `analyze_results`. -/
def sampleResults : List ApiResult :=
  [⟨some "success", some "Object processed", some "a"⟩,
   ⟨some "success", some "object already exists", some "b"⟩,
   ⟨some "error creating object", some "http 400", some "c"⟩]

/-- C5 at a concrete result list: one created, one already existing, one
failed with its name recorded. -/
theorem claim_C5_witness :
    analyze_results sampleResults
      = (sampleResults.countP isCreatedResult,
         sampleResults.countP isExistsResult,
         sampleResults.countP isFailedResult,
         (sampleResults.filter isFailedResult).map fun r => r.name.getD "") :=
  claim_C5 sampleResults (by decide) (by decide)

/-- C6 fails on `is_rule_order_correct`: comparing a current list holding
only the `default` sentinel against an empty desired list, the function
answers `false` where the sentinel-excluding comparison the claim describes
answers `true` — the function compares the name sequences as they stand. -/
theorem claim_C6_counterexample :
    ¬ (is_rule_order_correct [⟨"default", "d1", "F"⟩] []
        = ((([⟨"default", "d1", "F"⟩] : List Rule).filter fun r => r.name != "default").map
             (fun r => r.name)
          == ((([] : List Rule).filter fun r => r.name != "default")).map fun r => r.name)) := by
  decide

/-- Dropping the `default` sentinel before the folder filter and the
sentinel filter changes nothing. -/
theorem filterDefault_scope_comm (l : List Rule) (folderScope : String) :
    ((l.filter fun r => r.name != "default").filter fun r =>
        r.folder == folderScope).filter (fun r => r.name != "default")
      = (l.filter fun r => r.folder == folderScope).filter fun r => r.name != "default" := by
  simp only [List.filter_filter]
  apply List.filter_congr
  intro a _
  cases h1 : (a.name != "default") <;> cases h2 : (a.folder == folderScope) <;> simp [h1, h2]

/-- C6 as the code has it: the order check of `check_and_reorder_rules`
excludes `default`-named records from both sides — it is insensitive to
such records in either input and neither compared order ever holds the name
`default` — while `is_rule_order_correct` compares the raw name sequences
with no sentinel exclusion. -/
theorem claim_C6_amended (fetched originalRules : List Rule) (folderScope : String)
    (currentRules desiredRules : List Rule) :
    (checkOrderMatches fetched originalRules folderScope
      = checkOrderMatches (fetched.filter fun r => r.name != "default")
          (originalRules.filter fun r => r.name != "default") folderScope) ∧
    ((currentOrderOf fetched folderScope).all fun n => n != "default") = true ∧
    ((desiredOrderCheck originalRules).all fun n => n != "default") = true ∧
    is_rule_order_correct currentRules desiredRules
      = ((currentRules.map fun r => r.name) == (desiredRules.map fun r => r.name)) := by
  refine ⟨?_, ?_, ?_, rfl⟩
  · have hdes : (originalRules.filter fun r => r.name != "default").filter
        (fun r => r.name != "default") = originalRules.filter fun r => r.name != "default" := by
      induction originalRules with
      | nil => rfl
      | cons x xs ih => cases h1 : (x.name != "default") <;> simp [List.filter_cons, h1, ih]
    simp only [checkOrderMatches, currentOrderOf, desiredOrderCheck, scopeFilter]
    rw [filterDefault_scope_comm, hdes]
  · simp only [currentOrderOf, List.all_eq_true]
    intro n hn
    obtain ⟨r, hr, rfl⟩ := List.mem_map.mp hn
    exact (List.mem_filter.mp hr).2
  · simp only [desiredOrderCheck, List.all_eq_true]
    intro n hn
    obtain ⟨r, hr, rfl⟩ := List.mem_map.mp hn
    exact (List.mem_filter.mp hr).2

/-- Stated from the spec, for comparison with the engine: the filter by
`folder` exactly equal to the target scope that the spec requires before a
fetched record list is used. -/
def specFolderFilter (recs : List PyRec) (folderScope : String) : List PyRec :=
  recs.filter fun r => (dictGet r "folder").beq (.vstr folderScope)

/-- C7 fails on the object-diffing path: `fetch_objects` hands the fetched
records to the classifier with no folder filter, so a fetched record tagged
with another folder still counts as present — here it hides a desired
record from the new entries that the folder-filtered current set would have
classified as new. -/
theorem claim_C7_counterexample :
    ¬ (get_new_and_updated_entries [[("name", Value.vstr "X")]]
         [[("name", Value.vstr "X"), ("folder", Value.vstr "Other")]]
       = get_new_and_updated_entries [[("name", Value.vstr "X")]]
           (specFolderFilter [[("name", Value.vstr "X"), ("folder", Value.vstr "Other")]]
             "Target")) := by
  simp [get_new_and_updated_entries, specFolderFilter, nameAbsent, recName, dictGet,
    pyLookup, Value.beq, findByName, withId, dictSet, needs_update, needsUpdateLoop,
    deep_compare]

/-- C7 as the code has it: on the rule paths (`reorder_rules` refetch,
`check_and_reorder_rules`, `process_security_rules`) every record that
survives the folder filter carries exactly the target scope, while the
object-diffing path uses the fetched lists unfiltered (the
counterexample). -/
theorem claim_C7_amended (fetched : List Rule) (folderScope : String) :
    ((scopeFilter fetched folderScope).all fun r => r.folder == folderScope) = true := by
  simp only [scopeFilter, List.all_eq_true]
  intro r hr
  exact (List.mem_filter.mp hr).2

/-- A gateway behaviour whose every create call reports a creation. -/
def apiAllCreated : PyRec → ApiResult :=
  fun _ => ⟨some "success", some "Object processed", some "x"⟩

/-- C8 fails on the summary: called with no entries, `post_entries` returns
the zero counts and issues no create call, but its early return emits only
the plain `No entries to process.` line — no structured summary event is
produced. -/
theorem claim_C8_counterexample :
    (post_entries [] "/ep" apiAllCreated).1 = (0, 0, 0) ∧
    ((post_entries [] "/ep" apiAllCreated).2.any isPostEvent) = false ∧
    ((post_entries [] "/ep" apiAllCreated).2.any isSummaryEvent) = false := by
  decide

/-- C8 as the code has it: with no entries, `post_entries` returns the zero
counts after nothing but the plain info line — no summary; with at least one
entry it returns the analyzed counts and the structured summary event
carrying them is always among the emitted events. -/
theorem claim_C8_amended (entries : List PyRec) (endpoint : String)
    (api : PyRec → ApiResult) :
    (entries = [] →
      post_entries entries endpoint api
          = ((0, 0, 0), [LogEvent.info "No entries to process."]) ∧
      ((post_entries entries endpoint api).2.any isSummaryEvent) = false) ∧
    (entries ≠ [] →
      (post_entries entries endpoint api).1
        = ((analyze_results (entries.map api)).1,
           (analyze_results (entries.map api)).2.1,
           (analyze_results (entries.map api)).2.2.1) ∧
      log_summary entries.length (analyze_results (entries.map api)).1
          (analyze_results (entries.map api)).2.1
          (analyze_results (entries.map api)).2.2.1
          (analyze_results (entries.map api)).2.2.2
        ∈ (post_entries entries endpoint api).2) := by
  constructor
  · rintro rfl
    exact ⟨rfl, rfl⟩
  · intro hne
    have hemp : entries.isEmpty = false := by
      cases entries with
      | nil => exact absurd rfl hne
      | cons a l => rfl
    constructor
    · simp [post_entries, hemp, create_objects]
    · simp [post_entries, hemp, create_objects, log_summary]

/-- C9: when the comparison step raises on one field, the field loop of
`needs_update` yields exactly what it yields with that field removed — the
error is swallowed, the remaining fields are still compared, and the result
depends only on them. -/
theorem claim_C9 (cmp : Value → Value → Except String Bool)
    (pre post : PyRec) (k : String) (v : Value) (curObj : PyRec) (msg : String)
    (herr : cmp v (dictGet curObj k) = .error msg) :
    needsUpdateLoop cmp (pre ++ (k, v) :: post) curObj
      = needsUpdateLoop cmp (pre ++ post) curObj := by
  simp only [needsUpdateLoop, List.any_append, List.any_cons]
  cases hk : (k == "name") <;> simp [hk, herr]

/-- A comparison step that raises on the marker value and otherwise reports
no difference. -/
def cmpProbe : Value → Value → Except String Bool
  | .vstr "boom", _ => .error "comparison failed"
  | _, _ => .ok false

/-- C9 at a concrete record: the field whose comparison raises drops out of
the loop's result. -/
theorem claim_C9_witness :
    needsUpdateLoop cmpProbe ([("a", Value.vint 1)] ++ ("b", Value.vstr "boom")
        :: [("c", Value.vint 2)]) []
      = needsUpdateLoop cmpProbe ([("a", Value.vint 1)] ++ [("c", Value.vint 2)]) [] :=
  claim_C9 cmpProbe [("a", Value.vint 1)] [("c", Value.vint 2)] "b"
    (Value.vstr "boom") [] "comparison failed" rfl

/-- C10: `reorder_rules` returns Python's `None`, so whenever
`check_and_reorder_rules` detects a mismatch it calls `reorder_rules` once,
its done flag comes out true regardless of convergence, and the outer loop
stops there — its result does not depend on the fuel, the reorder call count
rises by one exactly when the first fetch showed a mismatch, and it never
rises further. -/
theorem claim_C10 {σ : Type} (gw : Gateway σ) (endpoint folderScope position : String)
    (originalRules currentRules : List Rule) (s : σ) (fuel fuel2 calls : Nat) :
    (reorder_rules gw endpoint folderScope position originalRules currentRules s).2 = none ∧
    check_and_reorder_rules gw endpoint folderScope position originalRules (fuel + 1) s calls
      = check_and_reorder_rules gw endpoint folderScope position originalRules
          (fuel2 + 1) s calls ∧
    (check_and_reorder_rules gw endpoint folderScope position originalRules
        (fuel + 1) s calls).2.2 = true ∧
    (check_and_reorder_rules gw endpoint folderScope position originalRules
        (fuel + 1) s calls).2.1
      = if ((scopeFilter (gw.getRules s).2 folderScope).filter fun r =>
              r.name != "default").map (fun r => r.name) ≠ desiredOrderCheck originalRules
        then calls + 1 else calls := by
  refine ⟨rfl, ?_, ?_, ?_⟩ <;>
    simp only [check_and_reorder_rules, reorder_rules, optTruthy] <;> split <;> simp

end PanosScm
